import Mathlib

/-!
Shallow embedding of the honeywell_task file-transfer system
(src/common/const.py, src/common/data.py, src/server_src/data.py,
src/server_src/server_impl.py, src/client_src/client_impl.py).

Byte strings (`bytes`/`bytearray`) are modelled as `List Nat` (each element a
byte value < 256 in every reachable state).  The Python standard library
pieces the code leans on (UTF-8 codec, `pathlib` joins, the filesystem) are
modelled explicitly below; `json.loads` of a control-frame body is kept as an
explicit function parameter `decode` of the frame parser, because it is
external library code whose only relevant behaviour is "a well-formed frame
decodes to one action, a malformed one raises".
-/

namespace HT

/-- UTF-8 encoding of one character (the standard algorithm, over `Nat`). -/
def utf8Bytes (c : Char) : List Nat :=
  let n := c.toNat
  if n < 0x80 then [n]
  else if n < 0x800 then
    [0xC0 ||| (n >>> 6), 0x80 ||| (n &&& 0x3F)]
  else if n < 0x10000 then
    [0xE0 ||| (n >>> 12), 0x80 ||| ((n >>> 6) &&& 0x3F), 0x80 ||| (n &&& 0x3F)]
  else
    [0xF0 ||| (n >>> 18), 0x80 ||| ((n >>> 12) &&& 0x3F),
     0x80 ||| ((n >>> 6) &&& 0x3F), 0x80 ||| (n &&& 0x3F)]

/-- Python `str.encode("utf-8")`: byte list of a string. -/
def encodeStr (s : String) : List Nat := s.data.flatMap utf8Bytes

/-- One step of UTF-8 decoding, fuelled by the list length (each step consumes
at least one byte, so `fuel = length` always suffices).  Mirrors the strict
`bytes.decode("utf-8")` codec: rejects stray continuation bytes, overlong
forms, surrogates and values above U+10FFFF. -/
def utf8DecodeAux : Nat → List Nat → Option (List Char)
  | _, [] => some []
  | 0, _ :: _ => none
  | fuel + 1, b :: rest =>
    let cont : Nat → Bool := fun x => 0x80 ≤ x && x < 0xC0
    if b < 0x80 then
      (utf8DecodeAux fuel rest).map (fun cs => Char.ofNat b :: cs)
    else if b < 0xC2 then none
    else if b < 0xE0 then
      match rest with
      | c1 :: r =>
        if cont c1 then
          (utf8DecodeAux fuel r).map
            (fun cs => Char.ofNat (((b - 0xC0) <<< 6) + (c1 - 0x80)) :: cs)
        else none
      | _ => none
    else if b < 0xF0 then
      match rest with
      | c1 :: c2 :: r =>
        let n := ((b - 0xE0) <<< 12) + ((c1 - 0x80) <<< 6) + (c2 - 0x80)
        if cont c1 && cont c2 && 0x800 ≤ n && ¬ (0xD800 ≤ n && n < 0xE000) then
          (utf8DecodeAux fuel r).map (fun cs => Char.ofNat n :: cs)
        else none
      | _ => none
    else if b < 0xF5 then
      match rest with
      | c1 :: c2 :: c3 :: r =>
        let n := ((b - 0xF0) <<< 18) + ((c1 - 0x80) <<< 12) +
                 ((c2 - 0x80) <<< 6) + (c3 - 0x80)
        if cont c1 && cont c2 && cont c3 && 0x10000 ≤ n && n < 0x110000 then
          (utf8DecodeAux fuel r).map (fun cs => Char.ofNat n :: cs)
        else none
      | _ => none
    else none

/-- Python `bytes.decode("utf-8")`. -/
def utf8Decode (l : List Nat) : Option String :=
  (utf8DecodeAux l.length l).map fun cs => String.mk cs

/-! ### common/const.py -/

/-- Frame delimiter byte: `ETB = b"\x17"`. -/
def ETBb : Nat := 0x17

/-- Cancellation sentinel: `CANCEL_B = b"\x18\x18\x18\x18"`. -/
def CANCEL_B : List Nat := [0x18, 0x18, 0x18, 0x18]

/-- Status bytes `OK_B = b"OK"`. -/
def OK_B : List Nat := encodeStr "OK"

/-- Status bytes `CANCELED_B = b"CANCELED"`. -/
def CANCELED_B : List Nat := encodeStr "CANCELED"

/-- Status bytes `ERROR_B = b"ERROR"`. -/
def ERROR_B : List Nat := encodeStr "ERROR"

/-- Action tags, `class Actions(int, Enum)` from common/const.py. -/
inductive Actions where
  | ECHO
  | SET_META
  | START_SEND
  | CLEAR_FILE_INFO
  | SET_FILE_BLOCK_SIZE
  deriving DecidableEq, Repr

/-! ### Python values carried in `ActionData.data`

After `json.loads`, an action payload is a Python object.  The protocol only
ever carries scalars (Echo, SetFileBlockSize) or the one dictionary shape
`{"dest_path": ..., "hash": ..., "size": ...}` produced for SetMeta, so the
payload type is specialised to those; any other dict shape would make
`ServerFileInfo(**data)` raise `TypeError`, which the `other` constructor
represents as well. -/

inductive PyObj where
  | none_
  | str (s : String)
  | int (n : Int)
  | boolean (b : Bool)
  | fileInfoDict (dest_path : String) (hash : Option String) (size : Nat)
  | other
  deriving DecidableEq, Repr

/-- Python `str()` of a payload value, as used by the ECHO branch
(`str(action.data)`). -/
def pyStr : PyObj → String
  | .none_ => "None"
  | .str s => s
  | .int n => toString n
  | .boolean b => if b then "True" else "False"
  | .fileInfoDict d h sz =>
      "\x7b\x27dest_path\x27: \x27" ++ d ++ "\x27, \x27hash\x27: " ++
      (match h with | some v => "\x27" ++ v ++ "\x27" | none => "None") ++
      ", \x27size\x27: " ++ toString sz ++ "\x7d"
  | .other => "<object>"

/-- Decoded control message, `@dataclass ActionData` from common/data.py. -/
structure ActionData where
  action : Actions
  data : PyObj
  deriving DecidableEq, Repr

/-- File descriptor, `@dataclass ServerFileInfo` from common/data.py. -/
structure ServerFileInfo where
  dest_path : String
  hash : Option String
  size : Nat
  size_transmited : Nat
  deriving DecidableEq, Repr

/-! ### Path helpers (the pieces of `pathlib` / `os.path` the server uses) -/

/-- Strip one trailing slash (the normalisation `pathlib.Path` applies).
Implemented over the character list so the kernel can evaluate it. -/
def stripSlash (p : String) : String :=
  match p.data.getLast? with
  | some c => if c = '/' then String.mk p.data.dropLast else p
  | none => p

/-- Python `Path(p).is_absolute()` (POSIX view). -/
def isAbsolute (p : String) : Bool :=
  match p.data with
  | c :: _ => c = '/'
  | [] => false

/-- Python `str(root / p)` for a relative `p`: `pathlib` drops a `"."` root and
normalises away a trailing slash before joining. -/
def pathJoin (root p : String) : String :=
  let r := stripSlash root
  if r = "." ∨ r = "" then p else r ++ "/" ++ p

/-- Path components of `p` (split of the character list on `/`). -/
def pathParts (p : String) : List (List Char) :=
  (stripSlash p).data.splitOn '/'

/-- Python `Path(p).name`: the final path component. -/
def pathName (p : String) : String :=
  String.mk (((pathParts p).getLast?).getD [])

/-- Python `str(Path(p).parent)`. -/
def parentPath (p : String) : String :=
  let parts := pathParts p
  if parts.length ≤ 1 then "."
  else
    let q := List.intercalate ['/'] parts.dropLast
    if q = [] then "/" else String.mk q

/-- Directories created by `os.makedirs(p, exist_ok=True)`: `p` together with
every ancestor, innermost last. -/
def ancestorDirs (p : String) : List String :=
  let parts := p.data.splitOn '/'
  (List.range parts.length).map fun i =>
    String.mk (List.intercalate ['/'] (parts.take (i + 1)))

/-! ### Filesystem model

The server touches the filesystem through `Path.exists`, `os.makedirs`,
`open(path, "wb")`, `file.write` and `os.remove`; a finite map from paths to
byte contents plus a set of created directories models exactly those. -/

structure FS where
  files : List (String × List Nat)
  dirs : List String
  deriving DecidableEq, Repr

/-- Content of the file at `p`, when it exists. -/
def FS.lookupFile (fs : FS) (p : String) : Option (List Nat) :=
  fs.files.lookup p

/-- Python `Path(p).exists()` (true for files and directories alike). -/
def FS.existsPath (fs : FS) (p : String) : Bool :=
  (fs.files.lookup p).isSome || fs.dirs.contains p

/-- Python `os.makedirs(p, exist_ok=True)`. -/
def FS.makedirs (fs : FS) (p : String) : FS :=
  { fs with dirs := ancestorDirs p ++ fs.dirs }

/-- Python `open(p, "wb")`: create or truncate the file at `p`. -/
def FS.createFile (fs : FS) (p : String) : FS :=
  { fs with files := (p, []) :: fs.files.filter (fun e => e.1 != p) }

/-- Append bytes written through the open handle for `p`. -/
def FS.writeFile (fs : FS) (p : String) (bytes : List Nat) : FS :=
  { fs with files := fs.files.map fun e => if e.1 = p then (e.1, e.2 ++ bytes) else e }

/-- Python `os.remove(p)`. -/
def FS.removeFile (fs : FS) (p : String) : FS :=
  { fs with files := fs.files.filter (fun e => e.1 != p) }

/-! ### server_src/data.py — ClientSession -/

/-- Per-connection session state, `class ClientSession` from
server_src/data.py.  The deque `actions` is kept left-to-right: `appendleft`
conses at the head, `pop` removes the last (oldest) element.  The open file
handle `file_handle` (source name `file_io`) is modelled by the path it was
opened on; `stdout`/`stdin` are the outbound/inbound byte buffers. -/
structure ClientSession where
  actions : List ActionData
  stdout : List Nat
  stdin : List Nat
  file_info : Option ServerFileInfo
  file_handle : Option String
  is_receiving_file : Bool
  file_block_size : Int
  deriving DecidableEq, Repr

/-- Fresh session as built by `ClientSession.__init__`. -/
def ClientSession.init (file_block_size : Int) : ClientSession :=
  { actions := [], stdout := [], stdin := [], file_info := none,
    file_handle := none, is_receiving_file := false,
    file_block_size := file_block_size }

/-- Server configuration fields of `Server.__init__` that the protocol logic
reads (`self.buffsize`, `self.max_file_block_size`, `self.root_dir`). -/
structure Server where
  buffsize : Nat
  max_file_block_size : Int
  root_dir : String
  deriving DecidableEq, Repr

/-! ### server_src/server_impl.py — action execution -/

/-- Body of `Server._handle_action` for one already-popped action
(server_impl.py lines 83-147).  Every branch appends its response text to
`stdout`; the trailing delimiter `session.stdout.extend(ETB)` (line 147) is
appended once at the end, as in the source.  Error messages are the `str()` of
the exception each branch raises. -/
def execAction (srv : Server) (a : ActionData) (s : ClientSession) (fs : FS) :
    ClientSession × FS :=
  let step : ClientSession × FS :=
    match a.action with
    | .ECHO =>
      ({ s with stdout := s.stdout ++ encodeStr (pyStr a.data) }, fs)
    | .SET_META =>
      if s.is_receiving_file then
        ({ s with stdout := s.stdout ++
            encodeStr "Cannot set file metadata, currently receiving file" }, fs)
      else
        match a.data with
        | .fileInfoDict dp h sz =>
          -- `session.file_info = ServerFileInfo(**action.data)` precedes the
          -- absolute-path check, so the descriptor stays registered (with the
          -- unrewritten path) even when the check raises.
          if isAbsolute dp then
            ({ s with file_info := some ⟨dp, h, sz, 0⟩,
                      stdout := s.stdout ++
                        encodeStr "Destination file path cannot be absolute" }, fs)
          else
            ({ s with file_info := some ⟨pathJoin srv.root_dir dp, h, sz, 0⟩,
                      stdout := s.stdout ++ OK_B }, fs)
        | _ =>
          -- `ServerFileInfo(**action.data)` raises TypeError before assignment.
          ({ s with stdout := s.stdout ++
              encodeStr "argument after ** must be a mapping" }, fs)
    | .START_SEND =>
      if s.is_receiving_file then
        ({ s with stdout := s.stdout ++
            encodeStr "Cannot start file transmission, currently receiving file" }, fs)
      else
        match s.file_info with
        | none =>
          -- `Path(session.file_info.dest_path)` raises AttributeError on None.
          ({ s with stdout := s.stdout ++
              encodeStr "\x27NoneType\x27 object has no attribute \x27dest_path\x27" }, fs)
        | some fi =>
          if fs.existsPath fi.dest_path then
            ({ s with stdout := s.stdout ++
                encodeStr ("File \x27" ++ pathName fi.dest_path ++ "\x27 already exists") }, fs)
          else
            ({ s with file_handle := some fi.dest_path,
                      is_receiving_file := true,
                      stdout := s.stdout ++ OK_B },
             (fs.makedirs (parentPath fi.dest_path)).createFile fi.dest_path)
    | .CLEAR_FILE_INFO =>
      if s.is_receiving_file then
        ({ s with stdout := s.stdout ++
            encodeStr "Cannot clear file info, file is still open" }, fs)
      else
        ({ s with file_info := none, stdout := s.stdout ++ OK_B }, fs)
    | .SET_FILE_BLOCK_SIZE =>
      match a.data with
      | .int n =>
        ({ s with file_block_size := min srv.max_file_block_size n,
                  stdout := s.stdout ++ OK_B }, fs)
      | .boolean b =>
        -- Python `int(True) = 1`, `int(False) = 0`.
        ({ s with file_block_size := min srv.max_file_block_size (if b then 1 else 0),
                  stdout := s.stdout ++ OK_B }, fs)
      | _ =>
        -- `int(action.data)` raises TypeError / ValueError.
        ({ s with stdout := s.stdout ++
            encodeStr "int() argument must not be this type" }, fs)
  ({ step.1 with stdout := step.1.stdout ++ [ETBb] }, step.2)

/-- Full `Server._handle_action`: no-op on an empty queue, otherwise
`deque.pop()` removes the rightmost (oldest) queued action and executes it. -/
def handle_action (srv : Server) (s : ClientSession) (fs : FS) :
    ClientSession × FS :=
  match s.actions.getLast? with
  | none => (s, fs)
  | some a => execAction srv a { s with actions := s.actions.dropLast } fs

/-- Execute a list of actions front first (helper used to state FIFO order). -/
def execList (srv : Server) : List ActionData → ClientSession → FS →
    ClientSession × FS
  | [], s, fs => (s, fs)
  | a :: rest, s, fs =>
    let r := execAction srv a s fs
    execList srv rest r.1 r.2

/-- Run `Server._handle_action` `n` times (one action per multiplexer pass). -/
def tickActions (srv : Server) : Nat → ClientSession → FS → ClientSession × FS
  | 0, s, fs => (s, fs)
  | n + 1, s, fs =>
    let r := handle_action srv s fs
    tickActions srv n r.1 r.2

/-- Per-action response slices: for each action in the list (front first), the
bytes its execution appends to the outbound buffer. -/
def responsesOf (srv : Server) : List ActionData → ClientSession → FS → List (List Nat)
  | [], _, _ => []
  | a :: rest, s, fs =>
    let r := execAction srv a s fs
    r.1.stdout.drop s.stdout.length :: responsesOf srv rest r.1 r.2

/-! ### server_src/data.py — frame parsing

A `decode` parameter stands for `bytes.decode` + `json.loads` +
`ActionData(**data)` applied to one frame body: `Except.ok` is a successful
decode, `Except.error msg` a raised exception with `str(exc) = msg`. -/

/-- One round of `ClientSession.parse_block`: take the bytes before the first
delimiter, decode them into an action (`appendleft` onto the queue) or, on
failure, append `str(exc) + ERROR + ETB` straight to the outbound buffer; in
both cases drop the consumed frame (and the delimiter) from `stdin`. -/
def parse_block (decode : List Nat → Except String ActionData)
    (s : ClientSession) : ClientSession :=
  let split := s.stdin.takeWhile (fun b => b != ETBb)
  let rest := s.stdin.drop (split.length + 1)
  match decode split with
  | .ok a => { s with actions := a :: s.actions, stdin := rest }
  | .error msg =>
    { s with stdout := s.stdout ++ encodeStr msg ++ ERROR_B ++ [ETBb],
             stdin := rest }

lemma parse_block_stdin (decode : List Nat → Except String ActionData)
    (s : ClientSession) :
    (parse_block decode s).stdin =
      s.stdin.drop ((s.stdin.takeWhile (fun b => b != ETBb)).length + 1) := by
  unfold parse_block
  dsimp only
  split <;> rfl

/-- Fuelled form of the loop `while ETB in session.stdin: session.parse_block()`
from `Server._handle_connection`.  Each `parse_block` strictly shortens
`stdin`, so fuel equal to the buffer length always reaches the loop's exit
condition. -/
def parseLoopAux (decode : List Nat → Except String ActionData) :
    Nat → ClientSession → ClientSession
  | 0, s => s
  | fuel + 1, s =>
    if ETBb ∈ s.stdin then parseLoopAux decode fuel (parse_block decode s) else s

/-- Loop `while ETB in session.stdin: session.parse_block()` from
`Server._handle_connection` (control-mode read path). -/
def parseLoop (decode : List Nat → Except String ActionData)
    (s : ClientSession) : ClientSession :=
  parseLoopAux decode s.stdin.length s

/-! ### server_src/server_impl.py — connection handling -/

/-- `Server._handle_file_cancel`: close and drop the handle, leave receiving
mode, queue `CANCELED` + delimiter, delete the partial destination file.
`none` models the AttributeError crash on a handle-less/descriptor-less
session, unreachable from reachable receiving states. -/
def handle_file_cancel (s : ClientSession) (fs : FS) :
    Option (ClientSession × FS) :=
  match s.file_handle, s.file_info with
  | some _, some fi =>
    some ({ s with is_receiving_file := false, file_handle := none,
                   stdout := s.stdout ++ CANCELED_B ++ [ETBb] },
          fs.removeFile fi.dest_path)
  | _, _ => none

/-- `Server._handle_file_done`: close and drop the handle, leave receiving
mode, queue `OK` + delimiter. -/
def handle_file_done (s : ClientSession) (fs : FS) :
    Option (ClientSession × FS) :=
  match s.file_handle with
  | some _ =>
    some ({ s with is_receiving_file := false, file_handle := none,
                   stdout := s.stdout ++ OK_B ++ [ETBb] }, fs)
  | none => none

/-- EVENT_READ branch of `Server._handle_connection` for one `recv` result.
`none` models session teardown (zero-length read ⇒ `_close_connection`) or an
unreachable crash state.  In receiving mode: a chunk whose tail is the
sentinel cancels before anything is written; otherwise the chunk is written
through the handle, the running count advanced, and the transfer completed
exactly when the count equals the declared size.  In control mode the bytes
join the inbound buffer and the frame parser runs. -/
def handle_read (srv : Server) (decode : List Nat → Except String ActionData)
    (s : ClientSession) (fs : FS) (recv : List Nat) :
    Option (ClientSession × FS) :=
  if recv = [] then none
  else if s.is_receiving_file then
    if CANCEL_B.isSuffixOf recv then handle_file_cancel s fs
    else
      match s.file_handle, s.file_info with
      | some p, some fi =>
        let fs1 := fs.writeFile p recv
        let fi1 := { fi with size_transmited := fi.size_transmited + recv.length }
        let s1 := { s with file_info := some fi1 }
        if fi1.size = fi1.size_transmited then handle_file_done s1 fs1
        else some (s1, fs1)
      | _, _ => none
  else
    some (parseLoop decode { s with stdin := s.stdin ++ recv }, fs)

/-- Feed a sequence of `recv` results through the read path. -/
def readRun (srv : Server) (decode : List Nat → Except String ActionData) :
    List (List Nat) → ClientSession → FS → Option (ClientSession × FS)
  | [], s, fs => some (s, fs)
  | r :: rs, s, fs =>
    match handle_read srv decode s fs r with
    | none => none
    | some sfs => readRun srv decode rs sfs.1 sfs.2

/-- EVENT_WRITE branch of `Server._handle_connection`: with a non-empty
outbound buffer, one `sock.send` accepts `sent` bytes and exactly that prefix
is removed (`session.stdout = session.stdout[sent:]`).  Returns the new
session and the bytes handed to the transport. -/
def handle_write (sent : Nat) (s : ClientSession) : ClientSession × List Nat :=
  if s.stdout = [] then (s, [])
  else ({ s with stdout := s.stdout.drop sent }, s.stdout.take sent)

/-- Iterate writable ticks; `accepts` lists how many bytes the transport takes
at each tick.  Returns the final session and the concatenation of delivered
byte slices. -/
def writeRun : List Nat → ClientSession → ClientSession × List Nat
  | [], s => (s, [])
  | n :: ns, s =>
    let r := handle_write n s
    let r2 := writeRun ns r.1
    (r2.1, r.2 ++ r2.2)

/-! ### client_src/client_impl.py — response parsing and the send loop -/

/-- Frame-splitting loop at the end of `ClientImpl._read_responses`:
`while ETB in self.stdin:` split off the bytes before the first delimiter,
decode them and `appendleft` onto the response deque (so the deque reads
newest-first and `pop()` takes the oldest).  A decode failure propagates as an
uncaught exception, modelled by `none`. -/
def clientParseFramesAux :
    Nat → List Nat → List String → Option (List Nat × List String)
  | 0, stdin, resps => some (stdin, resps)
  | fuel + 1, stdin, resps =>
    if ETBb ∈ stdin then
      let split := stdin.takeWhile (fun b => b != ETBb)
      match utf8Decode split with
      | none => none
      | some r => clientParseFramesAux fuel (stdin.drop (split.length + 1)) (r :: resps)
    else some (stdin, resps)

/-- Frame-splitting loop of `ClientImpl._read_responses`, with fuel equal to
the buffer length (each round strictly shortens the buffer). -/
def clientParseFrames (stdin : List Nat) (resps : List String) :
    Option (List Nat × List String) :=
  clientParseFramesAux stdin.length stdin resps

/-- `ClientImpl._read_responses` after the socket reads: all received bytes
extend the inbound buffer, then complete frames are split off. -/
def clientReadResponses (stdin : List Nat) (resps : List String)
    (newBytes : List Nat) : Option (List Nat × List String) :=
  clientParseFrames (stdin ++ newBytes) resps

/-- Python `deque.pop()`: the rightmost element of the deque, here the oldest
response (`appendleft` adds at the head). -/
def popOldest (l : List String) : Option (String × List String) :=
  match l.getLast? with
  | none => none
  | some r => some (r, l.dropLast)

/-- Mutable state of the `ClientImpl.send_file` loop: running byte count, the
two cancellation flags, and the bytes pushed onto the socket so far. -/
structure SendState where
  size_sent : Nat
  cancel_transfer : Bool
  cancel_all : Bool
  sentBytes : List Nat
  deriving DecidableEq, Repr

/-- The `while size_sent != size:` loop of `ClientImpl.send_file` (lines
183-212).  At each pass: if either cancellation flag is set, send the 4-byte
sentinel, clear only `cancel_transfer` and break; otherwise send the next
`min(file_block_size, size - size_sent)` bytes of the file via
`sock.sendfile` and advance the count.  `fuel` only bounds the recursion
(`none` = fuel exhausted, which enough fuel rules out). -/
def sendLoop (file_block_size size : Nat) (file : List Nat) :
    Nat → SendState → Option SendState
  | 0, _ => none
  | fuel + 1, st =>
    if st.size_sent ≠ size then
      if st.cancel_transfer || st.cancel_all then
        some { st with sentBytes := st.sentBytes ++ CANCEL_B,
                       cancel_transfer := false }
      else
        let count := if size - st.size_sent < file_block_size
                     then size - st.size_sent else file_block_size
        sendLoop file_block_size size file fuel
          { st with sentBytes := st.sentBytes ++ (file.drop st.size_sent).take count,
                    size_sent := st.size_sent + count }
    else some st

/-- Result of `ClientImpl.send_file`: the returned boolean, the response moved
into `msg.server_response`, and the final transfer/parser state. -/
structure SendFileResult where
  success : Bool
  server_response : String
  final : SendState
  stdin : List Nat
  responses : List String
  deriving DecidableEq, Repr

/-- Tail of `ClientImpl.send_file` after the StartSend handshake succeeded
(lines 183-225): run the send loop, then one final blocking
`_read_responses` over `serverBytes`, then `responses.pop()`; the returned
boolean is `resp == OK`.  `none` models fuel exhaustion, an undecodable
response, or `pop` on an empty deque (IndexError). -/
def send_file_after_start (file_block_size size : Nat) (file : List Nat)
    (st0 : SendState) (fuel : Nat) (stdin0 : List Nat) (resps0 : List String)
    (serverBytes : List Nat) : Option SendFileResult :=
  match sendLoop file_block_size size file fuel st0 with
  | none => none
  | some st =>
    match clientReadResponses stdin0 resps0 serverBytes with
    | none => none
    | some sr =>
      match popOldest sr.2 with
      | none => none
      | some rr => some ⟨rr.1 == "OK", rr.1, st, sr.1, rr.2⟩

/-! ### Specification-side definition (for the Echo refinement claim)

Follows the words of spec.md §4.1 "server returns the payload value unchanged,
JSON-stringified" — i.e. `json.dumps` of the payload — to be compared with the
code's `str(action.data)`. -/

/-- JSON stringification of a payload per the spec's words (string escaping
elided: irrelevant for the payloads compared). -/
def specJsonStringify : PyObj → String
  | .none_ => "null"
  | .str s => "\"" ++ s ++ "\""
  | .int n => toString n
  | .boolean b => if b then "true" else "false"
  | .fileInfoDict d h sz =>
      "\x7b\"dest_path\": \"" ++ d ++ "\", \"hash\": " ++
      (match h with | some v => "\"" ++ v ++ "\"" | none => "null") ++
      ", \"size\": " ++ toString sz ++ "\x7d"
  | .other => "null"

/-! ### Shared concrete fixtures (used by witnesses and counterexamples) -/

/-- Placeholder decoder for scenarios that never parse a frame. -/
def decodeStub : List Nat → Except String ActionData := fun _ => .error "unreachable"

/-- Concrete server configuration for witnesses. -/
def srvW : Server := ⟨1024, 65535, "root"⟩

/-- Fresh control-mode session. -/
def sessW : ClientSession := ClientSession.init 64

/-- Empty filesystem. -/
def fsEmpty : FS := ⟨[], []⟩

/-- Session mid-transfer: receiving into `root/a`, declared size 5, nothing
written yet (the state right after a successful `SetMeta` + `StartSend`). -/
def sessRecvW : ClientSession :=
  { sessW with is_receiving_file := true, file_handle := some "root/a",
               file_info := some ⟨"root/a", none, 5, 0⟩ }

/-- Filesystem holding the freshly created empty destination `root/a`. -/
def fsW : FS := ⟨[("root/a", [])], []⟩

/-- Filesystem in which the absolute path `/etc/passwd` exists. -/
def fsEtc : FS := ⟨[("/etc/passwd", [120])], []⟩

/-- Five frame bodies for the FIFO scenario (none contains the delimiter). -/
def framesW : List (List Nat) := [[48], [49], [50], [51], [52]]

/-- The actions the five frames decode to: mixed Echo / SetFileBlockSize. -/
def actsW : List ActionData :=
  [⟨.ECHO, .int 1⟩, ⟨.SET_FILE_BLOCK_SIZE, .int 100000⟩, ⟨.ECHO, .str "hi"⟩,
   ⟨.SET_FILE_BLOCK_SIZE, .int 8⟩, ⟨.ECHO, .none_⟩]

/-- Concrete decoder pairing `framesW` with `actsW`. -/
def decodeW : List Nat → Except String ActionData := fun l =>
  if l = [48] then .ok ⟨.ECHO, .int 1⟩
  else if l = [49] then .ok ⟨.SET_FILE_BLOCK_SIZE, .int 100000⟩
  else if l = [50] then .ok ⟨.ECHO, .str "hi"⟩
  else if l = [51] then .ok ⟨.SET_FILE_BLOCK_SIZE, .int 8⟩
  else if l = [52] then .ok ⟨.ECHO, .none_⟩
  else .error "Expecting value: line 1 column 1 (char 0)"

/-! ### Helper lemmas -/

lemma lookup_map_write :
    ∀ (l : List (String × List Nat)) (p : String) (r : List Nat),
      List.lookup p (l.map fun e => if e.1 = p then (e.1, e.2 ++ r) else e) =
        (List.lookup p l).map (· ++ r)
  | [], _, _ => rfl
  | (q, c) :: rest, p, r => by
    simp only [List.map_cons]
    by_cases h : q = p
    · subst h
      rw [if_pos rfl]
      simp [List.lookup]
    · rw [if_neg h]
      have hne : (p == q) = false := beq_eq_false_iff_ne.mpr (Ne.symm h)
      simp [List.lookup, hne, lookup_map_write rest p r]

lemma FS.lookupFile_writeFile (fs : FS) (p : String) (r : List Nat) :
    (fs.writeFile p r).lookupFile p = (fs.lookupFile p).map (· ++ r) := by
  unfold FS.writeFile FS.lookupFile
  exact lookup_map_write fs.files p r

lemma FS.lookupFile_removeFile (fs : FS) (p : String) :
    (fs.removeFile p).lookupFile p = none := by
  unfold FS.removeFile FS.lookupFile
  induction fs.files with
  | nil => rfl
  | cons e rest ih =>
    obtain ⟨q, c⟩ := e
    by_cases h : q = p
    · subst h
      simpa [List.filter] using ih
    · have hb : (q != p) = true := by simpa [bne_iff_ne] using h
      have hne : (p == q) = false := by
        simp [beq_iff_eq]
        exact fun hh => h hh.symm
      simpa [List.filter, hb, List.lookup, hne] using ih

lemma cancel_suffix_ne_nil {r : List Nat} (h : CANCEL_B.isSuffixOf r = true) :
    r ≠ [] := by
  intro hnil
  subst hnil
  simp [CANCEL_B, List.isSuffixOf] at h

/-! ## Claim C4 — Echo response text -/

/-- C4 counterexample: the claim says every Echo response equals the JSON
stringification of the payload, but `Echo(null)` produces the bytes of
Python's `str(None) = "None"`, not of `"null"` (and `Echo("hi")` produces the
bare `hi`, not the JSON-quoted string). -/
theorem c4_counterexample :
    (execAction srvW ⟨.ECHO, .none_⟩ sessW fsEmpty).1.stdout =
        encodeStr "None" ++ [ETBb]
    ∧ encodeStr "None" ++ [ETBb] ≠ encodeStr (specJsonStringify .none_) ++ [ETBb]
    ∧ (execAction srvW ⟨.ECHO, .str "hi"⟩ sessW fsEmpty).1.stdout ≠
        encodeStr (specJsonStringify (.str "hi")) ++ [ETBb] := by
  refine ⟨by decide, by decide, by decide⟩

/-- C4 amended: for every Echo payload the response text is Python's `str()`
rendering of the payload (the bare string for strings, `None` for null,
decimal for integers), followed by the delimiter; this coincides with JSON
stringification exactly for the integer payloads. -/
theorem c4_amended (srv : Server) (d : PyObj) (s : ClientSession) (fs : FS) :
    execAction srv ⟨.ECHO, d⟩ s fs =
      ({ s with stdout := s.stdout ++ encodeStr (pyStr d) ++ [ETBb] }, fs)
    ∧ ∀ n : Int, pyStr (.int n) = specJsonStringify (.int n) := by
  constructor
  · simp [execAction]
  · intro n
    rfl

/-! ## Claim C2 — SetMeta with an absolute destination path -/

/-- C2 counterexample: `SetMeta(dest="/etc/passwd", size=1)` on a fresh
session does produce an error response, but it does NOT leave the session
state unchanged: the pending descriptor is registered (with the unrewritten
absolute path), and the follow-up `StartSend` answers with the
file-already-exists error, not with the no-pending-descriptor
(`AttributeError` on `None`) semantics the claim requires. -/
theorem c2_counterexample :
    (execAction srvW ⟨.SET_META, .fileInfoDict "/etc/passwd" none 1⟩ sessW fsEtc).1.file_info
        = some ⟨"/etc/passwd", none, 1, 0⟩
    ∧ (execAction srvW ⟨.SET_META, .fileInfoDict "/etc/passwd" none 1⟩ sessW fsEtc).1.file_info
        ≠ none
    ∧ (execAction srvW ⟨.START_SEND, .none_⟩
        (execAction srvW ⟨.SET_META, .fileInfoDict "/etc/passwd" none 1⟩ sessW fsEtc).1
        fsEtc).1.stdout
      = encodeStr "Destination file path cannot be absolute" ++ [ETBb] ++
        encodeStr "File \x27passwd\x27 already exists" ++ [ETBb]
    ∧ encodeStr "File \x27passwd\x27 already exists" ≠
        encodeStr "\x27NoneType\x27 object has no attribute \x27dest_path\x27" := by
  refine ⟨by decide, by decide, by decide, by decide⟩

/-- C2 amended: on a session not in receiving mode, SetMeta with an absolute
destination path produces a non-OK (error-text) response and leaves the
filesystem untouched, but the pending descriptor IS registered with the
unrewritten absolute path; a subsequent StartSend therefore consults that
descriptor instead of failing with no-pending-descriptor semantics — it fails
with a file-already-exists error when the absolute path exists, and otherwise
opens the absolute destination and switches the session into receiving
mode. -/
theorem c2_amended (srv : Server) (s : ClientSession) (fs : FS)
    (dp : String) (h : Option String) (sz : Nat)
    (hmode : s.is_receiving_file = false) (habs : isAbsolute dp = true) :
    execAction srv ⟨.SET_META, .fileInfoDict dp h sz⟩ s fs =
      ({ s with file_info := some ⟨dp, h, sz, 0⟩,
                stdout := s.stdout ++
                  encodeStr "Destination file path cannot be absolute" ++ [ETBb] }, fs)
    ∧ encodeStr "Destination file path cannot be absolute" ≠ OK_B
    ∧ (fs.existsPath dp = true →
        ∀ d : PyObj,
          execAction srv ⟨.START_SEND, d⟩
            ({ s with file_info := some ⟨dp, h, sz, 0⟩,
                      stdout := s.stdout ++
                        encodeStr "Destination file path cannot be absolute" ++ [ETBb] }) fs =
          ({ s with file_info := some ⟨dp, h, sz, 0⟩,
                    stdout := s.stdout ++
                      encodeStr "Destination file path cannot be absolute" ++ [ETBb] ++
                      encodeStr ("File \x27" ++ pathName dp ++ "\x27 already exists") ++ [ETBb] }, fs))
    ∧ (fs.existsPath dp = false →
        ∀ d : PyObj,
          execAction srv ⟨.START_SEND, d⟩
            ({ s with file_info := some ⟨dp, h, sz, 0⟩,
                      stdout := s.stdout ++
                        encodeStr "Destination file path cannot be absolute" ++ [ETBb] }) fs =
          ({ s with file_info := some ⟨dp, h, sz, 0⟩,
                    file_handle := some dp,
                    is_receiving_file := true,
                    stdout := s.stdout ++
                      encodeStr "Destination file path cannot be absolute" ++ [ETBb] ++
                      OK_B ++ [ETBb] },
           (fs.makedirs (parentPath dp)).createFile dp)) := by
  refine ⟨?_, by decide, ?_, ?_⟩
  · simp [execAction, hmode, habs]
  · intro hex d
    simp [execAction, hmode, hex]
  · intro hex d
    simp [execAction, hmode, hex]

/-- C2 amended, witness: the concrete `/etc/passwd` scenario from the spec's
testable property 4. -/
theorem c2_amended_witness :
    execAction srvW ⟨.SET_META, .fileInfoDict "/etc/passwd" none 1⟩ sessW fsEtc =
      ({ sessW with file_info := some ⟨"/etc/passwd", none, 1, 0⟩,
                    stdout := encodeStr "Destination file path cannot be absolute" ++ [ETBb] }, fsEtc)
    ∧ execAction srvW ⟨.START_SEND, .none_⟩
        ({ sessW with file_info := some ⟨"/etc/passwd", none, 1, 0⟩,
                      stdout := encodeStr "Destination file path cannot be absolute" ++ [ETBb] }) fsEtc =
      ({ sessW with file_info := some ⟨"/etc/passwd", none, 1, 0⟩,
                    stdout := encodeStr "Destination file path cannot be absolute" ++ [ETBb] ++
                      encodeStr "File \x27passwd\x27 already exists" ++ [ETBb] }, fsEtc) := by
  have h := c2_amended srvW sessW fsEtc "/etc/passwd" none 1 (by decide) (by decide)
  refine ⟨?_, ?_⟩
  · have h1 := h.1
    simpa [sessW, ClientSession.init] using h1
  · have h3 := h.2.2.1 (by decide) .none_
    simpa [sessW, ClientSession.init] using h3

/-! ## Claim C7 — StartSend failure and success semantics -/

/-- C7 counterexample: the claim says every failing StartSend leaves the
session in control mode, but when StartSend fails because the session is
already receiving, the session stays in receiving mode (the response is
non-OK, as required). -/
theorem c7_counterexample :
    (execAction srvW ⟨.START_SEND, .none_⟩ sessRecvW fsW).1.is_receiving_file = true
    ∧ (execAction srvW ⟨.START_SEND, .none_⟩ sessRecvW fsW).1.stdout =
        encodeStr "Cannot start file transmission, currently receiving file" ++ [ETBb]
    ∧ encodeStr "Cannot start file transmission, currently receiving file" ≠ OK_B := by
  refine ⟨by decide, by decide, by decide⟩

/-- C7 amended: StartSend fails with a non-OK response — leaving the
filesystem (hence any pre-existing file content) untouched and the session's
mode unchanged (receiving if it was receiving, control otherwise) — whenever
the session is already receiving, no pending descriptor is set, or the
destination path already exists; otherwise it creates the missing parent
directories, opens (creates/truncates) the destination for writing, and
switches the session into receiving mode. -/
theorem c7_amended (srv : Server) (s : ClientSession) (fs : FS) (d : PyObj) :
    (s.is_receiving_file = true →
      execAction srv ⟨.START_SEND, d⟩ s fs =
        ({ s with stdout := s.stdout ++
            encodeStr "Cannot start file transmission, currently receiving file" ++ [ETBb] }, fs))
    ∧ (s.is_receiving_file = false → s.file_info = none →
        execAction srv ⟨.START_SEND, d⟩ s fs =
          ({ s with stdout := s.stdout ++
              encodeStr "\x27NoneType\x27 object has no attribute \x27dest_path\x27" ++ [ETBb] }, fs))
    ∧ (∀ fi : ServerFileInfo, s.is_receiving_file = false → s.file_info = some fi →
        fs.existsPath fi.dest_path = true →
        execAction srv ⟨.START_SEND, d⟩ s fs =
          ({ s with stdout := s.stdout ++
              encodeStr ("File \x27" ++ pathName fi.dest_path ++ "\x27 already exists") ++ [ETBb] }, fs))
    ∧ (∀ fi : ServerFileInfo, s.is_receiving_file = false → s.file_info = some fi →
        fs.existsPath fi.dest_path = false →
        execAction srv ⟨.START_SEND, d⟩ s fs =
          ({ s with file_handle := some fi.dest_path,
                    is_receiving_file := true,
                    stdout := s.stdout ++ OK_B ++ [ETBb] },
           (fs.makedirs (parentPath fi.dest_path)).createFile fi.dest_path))
    ∧ encodeStr "Cannot start file transmission, currently receiving file" ≠ OK_B
    ∧ encodeStr "\x27NoneType\x27 object has no attribute \x27dest_path\x27" ≠ OK_B := by
  refine ⟨?_, ?_, ?_, ?_, by decide, by decide⟩
  · intro hmode
    simp [execAction, hmode]
  · intro hmode hfi
    simp [execAction, hmode, hfi]
  · intro fi hmode hfi hex
    simp [execAction, hmode, hfi, hex]
  · intro fi hmode hfi hex
    simp [execAction, hmode, hfi, hex]

/-- C7 amended, witness: the already-receiving failure (mode stays receiving)
and the success path on a fresh session with pending descriptor `root/a`. -/
theorem c7_amended_witness :
    execAction srvW ⟨.START_SEND, .none_⟩ sessRecvW fsW =
      ({ sessRecvW with
          stdout := encodeStr "Cannot start file transmission, currently receiving file" ++ [ETBb] }, fsW)
    ∧ execAction srvW ⟨.START_SEND, .none_⟩
        ({ sessW with file_info := some ⟨"root/a", none, 5, 0⟩ }) fsEmpty =
      ({ sessW with file_info := some ⟨"root/a", none, 5, 0⟩,
                    file_handle := some "root/a",
                    is_receiving_file := true,
                    stdout := OK_B ++ [ETBb] },
       (fsEmpty.makedirs (parentPath "root/a")).createFile "root/a") := by
  refine ⟨?_, ?_⟩
  · have h := (c7_amended srvW sessRecvW fsW .none_).1 (by decide)
    simpa using h
  · have h := (c7_amended srvW ({ sessW with file_info := some ⟨"root/a", none, 5, 0⟩ }) fsEmpty
      .none_).2.2.2.1 ⟨"root/a", none, 5, 0⟩ (by decide) rfl (by decide)
    simpa [sessW, ClientSession.init] using h

/-! ## Claim C3 — size invariant while receiving -/

lemma parse_block_file_info (decode : List Nat → Except String ActionData)
    (s : ClientSession) : (parse_block decode s).file_info = s.file_info := by
  unfold parse_block
  dsimp only
  split <;> rfl

lemma parseLoopAux_file_info (decode : List Nat → Except String ActionData) :
    ∀ (fuel : Nat) (s : ClientSession),
      (parseLoopAux decode fuel s).file_info = s.file_info
  | 0, s => rfl
  | fuel + 1, s => by
    unfold parseLoopAux
    split
    · rw [parseLoopAux_file_info decode fuel, parse_block_file_info]
    · rfl

lemma parseLoop_file_info (decode : List Nat → Except String ActionData)
    (s : ClientSession) : (parseLoop decode s).file_info = s.file_info :=
  parseLoopAux_file_info decode s.stdin.length s

/-- One read either leaves the descriptor untouched or advances its running
count by exactly the read's length. -/
lemma handle_read_file_info (srv : Server)
    (decode : List Nat → Except String ActionData) (s : ClientSession) (fs : FS)
    (recv : List Nat) (s' : ClientSession) (fs' : FS)
    (h : handle_read srv decode s fs recv = some (s', fs')) :
    s'.file_info = s.file_info ∨
    ∃ fi, s.file_info = some fi ∧
      s'.file_info = some { fi with size_transmited := fi.size_transmited + recv.length } := by
  by_cases hnil : recv = []
  · simp [handle_read, hnil] at h
  · by_cases hrecv : s.is_receiving_file
    · by_cases hcan : CANCEL_B.isSuffixOf recv
      · cases hfh : s.file_handle with
        | none =>
          cases hfi : s.file_info with
          | none => simp [handle_read, handle_file_cancel, hnil, hrecv, hcan, hfh, hfi] at h
          | some fi => simp [handle_read, handle_file_cancel, hnil, hrecv, hcan, hfh, hfi] at h
        | some p =>
          cases hfi : s.file_info with
          | none => simp [handle_read, handle_file_cancel, hnil, hrecv, hcan, hfh, hfi] at h
          | some fi =>
            simp [handle_read, handle_file_cancel, hnil, hrecv, hcan, hfh, hfi] at h
            left
            rw [← h.1]
      · cases hfh : s.file_handle with
        | none => simp [handle_read, hnil, hrecv, hcan, hfh] at h
        | some p =>
          cases hfi : s.file_info with
          | none => simp [handle_read, hnil, hrecv, hcan, hfh, hfi] at h
          | some fi =>
            by_cases hsz : fi.size = fi.size_transmited + recv.length
            · simp [handle_read, handle_file_done, hnil, hrecv, hcan, hfh, hfi, hsz] at h
              right
              refine ⟨fi, rfl, ?_⟩
              rw [← h.1, hsz]
            · simp [handle_read, handle_file_done, hnil, hrecv, hcan, hfh, hfi, hsz] at h
              right
              exact ⟨fi, rfl, by rw [← h.1]⟩
    · simp [handle_read, hnil, hrecv] at h
      left
      rw [← h.1, parseLoop_file_info]

/-- Invariant-propagation along a sequence of reads: if the declared budget
covers the running count plus everything still to be read, the count stays
within the budget. -/
lemma readRun_size_bound (srv : Server)
    (decode : List Nat → Except String ActionData) (bound : Nat) :
    ∀ (reads : List (List Nat)) (s : ClientSession) (fs : FS),
      (∀ fi, s.file_info = some fi →
        fi.size_transmited + (reads.map List.length).sum ≤ bound) →
      ∀ r, readRun srv decode reads s fs = some r →
        ∀ fi, r.1.file_info = some fi → fi.size_transmited ≤ bound
  | [], s, fs, hinv, r, hrun, fi, hfi => by
    simp [readRun] at hrun
    rw [← hrun] at hfi
    simpa using hinv fi hfi
  | r0 :: rest, s, fs, hinv, r, hrun, fi, hfi => by
    simp only [readRun] at hrun
    cases hread : handle_read srv decode s fs r0 with
    | none => rw [hread] at hrun; simp at hrun
    | some sfs =>
      rw [hread] at hrun
      refine readRun_size_bound srv decode bound rest sfs.1 sfs.2 ?_ r hrun fi hfi
      intro fi' hfi'
      rcases handle_read_file_info srv decode s fs r0 sfs.1 sfs.2
          (by rw [hread]) with hsame | ⟨fi0, hfi0, hstep⟩
      · have := hinv fi' (by rw [← hsame]; exact hfi')
        simp only [List.map_cons, List.sum_cons] at this
        omega
      · rw [hstep] at hfi'
        cases hfi'
        have := hinv fi0 hfi0
        simp only [List.map_cons, List.sum_cons] at this
        simp only
        omega

/-- C3 counterexample: with declared size 5 and nothing yet received, a single
6-byte read drives the running count to 6 > 5 while the session is still in
receiving mode — the invariant claimed for every sequence of reads fails. -/
theorem c3_counterexample :
    (handle_read srvW decodeStub sessRecvW fsW [1, 2, 3, 4, 5, 6]).map
        (fun r => (r.1.file_info, r.1.is_receiving_file)) =
      some (some ⟨"root/a", none, 5, 6⟩, true)
    ∧ 5 < 6 := by
  refine ⟨by decide, by decide⟩

/-- C3 amended: the running count never exceeds the declared size provided the
bytes received while the descriptor is registered fit its remaining budget
(`size_transmited + Σ |read| ≤ size`) — in particular for every prefix of
such a run; the code itself never clips or rejects an overshooting read, so
the invariant does not hold for arbitrary read sequences. -/
theorem c3_amended (srv : Server)
    (decode : List Nat → Except String ActionData)
    (reads : List (List Nat)) (s : ClientSession) (fs : FS)
    (fi : ServerFileInfo)
    (hrecv : s.is_receiving_file = true)
    (hfi : s.file_info = some fi)
    (hbound : fi.size_transmited + (reads.map List.length).sum ≤ fi.size) :
    ∀ k r, readRun srv decode (reads.take k) s fs = some r →
      ∀ fi', r.1.file_info = some fi' → fi'.size_transmited ≤ fi.size := by
  intro k r hrun fi' hfi'
  refine readRun_size_bound srv decode fi.size (reads.take k) s fs ?_ r hrun fi' hfi'
  intro fi0 hfi0
  rw [hfi] at hfi0
  cases hfi0
  have hle : (((reads.take k).map List.length).sum : Nat) ≤ (reads.map List.length).sum := by
    rw [List.map_take]
    have := List.sum_take_add_sum_drop (reads.map List.length) k
    omega
  omega

/-- C3 amended, witness: size 5, reads of 2 then 3 bytes; after every prefix
the count stays at most 5. -/
theorem c3_amended_witness :
    readRun srvW decodeStub ([[1, 2], [3, 4, 5]].take 2) sessRecvW fsW =
      some ({ sessRecvW with is_receiving_file := false, file_handle := none,
                             file_info := some ⟨"root/a", none, 5, 5⟩,
                             stdout := OK_B ++ [ETBb] },
            ⟨[("root/a", [1, 2, 3, 4, 5])], []⟩)
    ∧ (5 : Nat) ≤ 5 := by
  constructor
  · decide
  · exact c3_amended srvW decodeStub [[1, 2], [3, 4, 5]] sessRecvW fsW
      ⟨"root/a", none, 5, 0⟩ (by decide) (by decide) (by decide) 2
      ({ sessRecvW with is_receiving_file := false, file_handle := none,
                        file_info := some ⟨"root/a", none, 5, 5⟩,
                        stdout := OK_B ++ [ETBb] },
       ⟨[("root/a", [1, 2, 3, 4, 5])], []⟩)
      (by decide) ⟨"root/a", none, 5, 5⟩ (by decide)

/-! ## Claim C6 — sentinel-triggered cancellation -/

/-- C6: in receiving mode, a chunk whose tail is the 4-byte sentinel aborts
the transfer: nothing of the chunk is written, the destination file is
removed, the handle is dropped, the session returns to control mode, and
`CANCELED` + delimiter (not `OK`) is queued. -/
theorem c6_cancel_sentinel (srv : Server)
    (decode : List Nat → Except String ActionData)
    (s : ClientSession) (fs : FS) (r : List Nat) (p : String)
    (fi : ServerFileInfo)
    (hrecv : s.is_receiving_file = true)
    (hfh : s.file_handle = some p)
    (hfi : s.file_info = some fi)
    (hcan : CANCEL_B.isSuffixOf r = true) :
    handle_read srv decode s fs r =
      some ({ s with is_receiving_file := false, file_handle := none,
                     stdout := s.stdout ++ CANCELED_B ++ [ETBb] },
            fs.removeFile fi.dest_path)
    ∧ (fs.removeFile fi.dest_path).lookupFile fi.dest_path = none
    ∧ CANCELED_B ≠ OK_B := by
  refine ⟨?_, FS.lookupFile_removeFile fs fi.dest_path, by decide⟩
  have hnil : r ≠ [] := cancel_suffix_ne_nil hcan
  simp [handle_read, handle_file_cancel, hnil, hrecv, hcan, hfh, hfi]

/-- C6 witness: declared size 5, two data bytes followed by the sentinel in
the final chunk; destination `root/a` no longer exists afterwards. -/
theorem c6_cancel_sentinel_witness :
    handle_read srvW decodeStub sessRecvW fsW [1, 2, 24, 24, 24, 24] =
      some ({ sessRecvW with is_receiving_file := false, file_handle := none,
                             stdout := CANCELED_B ++ [ETBb] },
            fsW.removeFile "root/a")
    ∧ (fsW.removeFile "root/a").lookupFile "root/a" = none := by
  have h := c6_cancel_sentinel srvW decodeStub sessRecvW fsW
    [1, 2, 24, 24, 24, 24] "root/a" ⟨"root/a", none, 5, 0⟩
    (by decide) (by decide) (by decide) (by decide)
  exact ⟨h.1, h.2.1⟩

/-! ## Claim C5 — verbatim streaming and exact-size completion -/

lemma foldl_writeFile_lookup (p : String) :
    ∀ (reads : List (List Nat)) (fs : FS),
      (reads.foldl (fun acc r => acc.writeFile p r) fs).lookupFile p =
        (fs.lookupFile p).map (· ++ reads.flatten)
  | [], fs => by
    cases h : fs.lookupFile p <;> simp [h]
  | r :: rest, fs => by
    simp only [List.foldl_cons, foldl_writeFile_lookup p rest,
      FS.lookupFile_writeFile, List.flatten_cons]
    cases h : fs.lookupFile p <;> simp [h]

/-- Streaming a read sequence that exactly exhausts the declared budget ends
the transfer: the final read makes the running count hit the size, the done
handler fires, and the filesystem has received every chunk in order. -/
lemma readRun_receive_exact (srv : Server)
    (decode : List Nat → Except String ActionData) :
    ∀ (reads : List (List Nat)) (s : ClientSession) (fs : FS) (p : String)
      (fi : ServerFileInfo),
      s.is_receiving_file = true →
      s.file_handle = some p →
      s.file_info = some fi →
      reads ≠ [] →
      (∀ r ∈ reads, r ≠ [] ∧ CANCEL_B.isSuffixOf r = false) →
      fi.size_transmited + (reads.map List.length).sum = fi.size →
      readRun srv decode reads s fs =
        some ({ s with is_receiving_file := false, file_handle := none,
                       file_info := some { fi with size_transmited := fi.size },
                       stdout := s.stdout ++ OK_B ++ [ETBb] },
              reads.foldl (fun acc r => acc.writeFile p r) fs)
  | [], _, _, _, _, _, _, _, hne, _, _ => absurd rfl hne
  | r :: rest, s, fs, p, fi, hrecv, hfh, hfi, _, hall, hsum => by
    have hr := hall r (List.mem_cons_self r rest)
    by_cases hrest : rest = []
    · subst hrest
      have hsz : fi.size = fi.size_transmited + r.length := by
        simp at hsum
        omega
      have hstep : handle_read srv decode s fs r =
          some ({ s with is_receiving_file := false, file_handle := none,
                         file_info := some { fi with
                           size_transmited := fi.size_transmited + r.length },
                         stdout := s.stdout ++ OK_B ++ [ETBb] },
                fs.writeFile p r) := by
        simp [handle_read, handle_file_done, hr.1, hr.2, hrecv, hfh, hfi, hsz]
      simp only [readRun, hstep]
      rw [← hsz]
      simp
    · have hr1pos : 0 < (rest.map List.length).sum := by
        cases rest with
        | nil => exact absurd rfl hrest
        | cons r1 rest' =>
          have hne1 := (hall r1 (by simp)).1
          have hpos1 : 0 < r1.length := List.length_pos.mpr hne1
          simp
          omega
      have hsz : ¬ (fi.size = fi.size_transmited + r.length) := by
        simp at hsum
        omega
      have ih := readRun_receive_exact srv decode rest
        ({ s with file_info := some { fi with size_transmited := fi.size_transmited + r.length } })
        (fs.writeFile p r) p
        ({ fi with size_transmited := fi.size_transmited + r.length })
        hrecv hfh rfl hrest (fun x hx => hall x (List.mem_cons_of_mem r hx))
        (by simp at hsum ⊢; omega)
      have hstep : handle_read srv decode s fs r =
          some ({ s with file_info := some { fi with
                    size_transmited := fi.size_transmited + r.length } },
                fs.writeFile p r) := by
        simp [handle_read, hr.1, hr.2, hrecv, hfh, hfi, hsz]
      simp only [readRun, hstep, ih]
      simp

/-- C5: while receiving with declared size `N` and a fresh descriptor, the
raw reads are appended verbatim to the destination file; when the running
count reaches exactly `N` the server closes the handle, queues `OK` +
delimiter, returns to control mode, and the destination file holds exactly
the `N` bytes sent. -/
theorem c5_receive_completion (srv : Server)
    (decode : List Nat → Except String ActionData)
    (reads : List (List Nat)) (s : ClientSession) (fs : FS)
    (fi : ServerFileInfo)
    (hrecv : s.is_receiving_file = true)
    (hfh : s.file_handle = some fi.dest_path)
    (hfi : s.file_info = some fi)
    (hfresh : fi.size_transmited = 0)
    (hfile : fs.lookupFile fi.dest_path = some [])
    (hne : reads ≠ [])
    (hall : ∀ r ∈ reads, r ≠ [] ∧ CANCEL_B.isSuffixOf r = false)
    (hsum : (reads.map List.length).sum = fi.size) :
    readRun srv decode reads s fs =
      some ({ s with is_receiving_file := false, file_handle := none,
                     file_info := some { fi with size_transmited := fi.size },
                     stdout := s.stdout ++ OK_B ++ [ETBb] },
            reads.foldl (fun acc r => acc.writeFile fi.dest_path r) fs)
    ∧ (reads.foldl (fun acc r => acc.writeFile fi.dest_path r) fs).lookupFile
        fi.dest_path = some reads.flatten
    ∧ reads.flatten.length = fi.size := by
  refine ⟨?_, ?_, ?_⟩
  · exact readRun_receive_exact srv decode reads s fs fi.dest_path fi
      hrecv hfh hfi hne hall (by omega)
  · rw [foldl_writeFile_lookup, hfile]
    simp
  · rw [List.length_flatten]
    exact hsum

/-- C5 witness: the spec's round trip — size 5, chunks `"he"` then `"llo"`,
terminal `OK`, file contents exactly `"hello"`. -/
theorem c5_receive_completion_witness :
    readRun srvW decodeStub [[104, 101], [108, 108, 111]] sessRecvW fsW =
      some ({ sessRecvW with is_receiving_file := false, file_handle := none,
                             file_info := some ⟨"root/a", none, 5, 5⟩,
                             stdout := OK_B ++ [ETBb] },
            [[104, 101], [108, 108, 111]].foldl
              (fun acc r => acc.writeFile "root/a" r) fsW)
    ∧ ([[104, 101], [108, 108, 111]].foldl
        (fun acc r => acc.writeFile "root/a" r) fsW).lookupFile "root/a" =
          some [104, 101, 108, 108, 111]
    ∧ [104, 101, 108, 108, 111].length = 5 := by
  have h := c5_receive_completion srvW decodeStub [[104, 101], [108, 108, 111]]
    sessRecvW fsW ⟨"root/a", none, 5, 0⟩ (by decide) (by decide) (by decide)
    (by decide) (by decide) (by decide) (by decide) (by decide)
  exact ⟨h.1, h.2.1, h.2.2⟩

/-! ## Claim C8 — partial writes on writable ticks -/

lemma writeRun_delivers :
    ∀ (accepts : List Nat) (s : ClientSession),
      (∀ n ∈ accepts, 1 ≤ n) → s.stdout.length ≤ accepts.length →
      writeRun accepts s = ({ s with stdout := [] }, s.stdout)
  | [], s, _, h2 => by
    have h0 : s.stdout = [] := by simpa using h2
    cases s with
    | mk a o i f fh rcv bl =>
      simp only at h0
      subst h0
      simp [writeRun]
  | n :: ns, s, h1, h2 => by
    by_cases h0 : s.stdout = []
    · have ih := writeRun_delivers ns s
        (fun m hm => h1 m (List.mem_cons_of_mem n hm)) (by simp [h0])
      simp [writeRun, handle_write, h0, ih]
    · have hn : 1 ≤ n := h1 n (List.mem_cons_self n ns)
      have hlen : (s.stdout.drop n).length ≤ ns.length := by
        rw [List.length_drop]
        simp at h2
        omega
      have ih := writeRun_delivers ns ({ s with stdout := s.stdout.drop n })
        (fun m hm => h1 m (List.mem_cons_of_mem n hm)) hlen
      simp [writeRun, handle_write, h0, ih]

/-- C8: each writable tick with a non-empty outbound buffer performs one send
and removes exactly the accepted prefix, leaving the remainder (and all other
session state) for retry — the delivered slice plus the remaining buffer is
always the original buffer, so no partial write loses or duplicates bytes —
and under any per-tick acceptance of at least one byte the whole buffer is
delivered intact, in order, exactly once. -/
theorem c8_partial_writes (accepts : List Nat) (s : ClientSession)
    (h1 : ∀ n ∈ accepts, 1 ≤ n) (h2 : s.stdout.length ≤ accepts.length) :
    ((writeRun accepts s).2 = s.stdout
      ∧ (writeRun accepts s).1 = { s with stdout := [] })
    ∧ ∀ n, (handle_write n s).2 ++ (handle_write n s).1.stdout = s.stdout := by
  constructor
  · rw [writeRun_delivers accepts s h1 h2]
    exact ⟨rfl, rfl⟩
  · intro n
    by_cases h0 : s.stdout = [] <;> simp [handle_write, h0]

/-- C8 witness: a 20-byte response frame pushed through a transport accepting
3 bytes per send is delivered intact and the buffer drains. -/
theorem c8_partial_writes_witness :
    (writeRun (List.replicate 20 3) { sessW with stdout := List.range 20 }).2 =
      List.range 20
    ∧ (writeRun (List.replicate 20 3) { sessW with stdout := List.range 20 }).1 =
      { sessW with stdout := [] } := by
  have h := c8_partial_writes (List.replicate 20 3)
    { sessW with stdout := List.range 20 } (by decide) (by decide)
  exact ⟨h.1.1, h.1.2⟩

/-! ## Claim C9 — client-side cancellation and the authoritative final read -/

/-- C9: when a cancellation flag is observed at a chunk boundary the send loop
sends the 4-byte sentinel, clears only the per-transfer flag (the per-batch
flag and the byte count are untouched), and exits; afterwards — exactly as
after a completed loop — `send_file` performs one final blocking response
read and returns the server's terminal status (`resp == OK`, with the
response text surfaced verbatim), forging no local result. -/
theorem c9_client_cancel_and_final_read
    (file_block_size size : Nat) (file : List Nat) (st st2 : SendState)
    (fuel : Nat) (serverBytes : List Nat) (X : String)
    (h1 : st.size_sent ≠ size)
    (h2 : (st.cancel_transfer || st.cancel_all) = true)
    (hparse : clientReadResponses [] [] serverBytes = some ([], [X]))
    (h3 : st2.size_sent = size) :
    sendLoop file_block_size size file (fuel + 1) st =
      some { st with sentBytes := st.sentBytes ++ CANCEL_B, cancel_transfer := false }
    ∧ send_file_after_start file_block_size size file st (fuel + 1) [] [] serverBytes =
        some ⟨X == "OK", X,
          { st with sentBytes := st.sentBytes ++ CANCEL_B, cancel_transfer := false },
          [], []⟩
    ∧ send_file_after_start file_block_size size file st2 (fuel + 1) [] [] serverBytes =
        some ⟨X == "OK", X, st2, [], []⟩ := by
  have hloop : sendLoop file_block_size size file (fuel + 1) st =
      some { st with sentBytes := st.sentBytes ++ CANCEL_B, cancel_transfer := false } := by
    simp [sendLoop, h1, h2]
  have hloop2 : sendLoop file_block_size size file (fuel + 1) st2 = some st2 := by
    simp [sendLoop, h3]
  refine ⟨hloop, ?_, ?_⟩
  · simp [send_file_after_start, hloop, hparse, popOldest]
  · simp [send_file_after_start, hloop2, hparse, popOldest]

/-- C9 witness: flag set before the first chunk of a 5-byte transfer; the
server answers `CANCELED`, which becomes the returned (non-OK) status. -/
theorem c9_client_cancel_witness :
    sendLoop 4 5 [10, 11, 12, 13, 14] 9 ⟨0, true, false, []⟩ =
      some ⟨0, false, false, CANCEL_B⟩
    ∧ send_file_after_start 4 5 [10, 11, 12, 13, 14] ⟨0, true, false, []⟩ 9 [] []
        (encodeStr "CANCELED" ++ [ETBb]) =
      some ⟨false, "CANCELED", ⟨0, false, false, CANCEL_B⟩, [], []⟩
    ∧ send_file_after_start 4 5 [10, 11, 12, 13, 14] ⟨5, false, false, [10, 11, 12, 13, 14]⟩
        9 [] [] (encodeStr "OK" ++ [ETBb]) =
      some ⟨true, "OK", ⟨5, false, false, [10, 11, 12, 13, 14]⟩, [], []⟩ := by
  have ha := c9_client_cancel_and_final_read 4 5 [10, 11, 12, 13, 14]
    ⟨0, true, false, []⟩ ⟨5, false, false, [10, 11, 12, 13, 14]⟩ 8
    (encodeStr "CANCELED" ++ [ETBb]) "CANCELED"
    (by decide) (by decide) (by decide) (by decide)
  have hb := c9_client_cancel_and_final_read 4 5 [10, 11, 12, 13, 14]
    ⟨0, true, false, []⟩ ⟨5, false, false, [10, 11, 12, 13, 14]⟩ 8
    (encodeStr "OK" ++ [ETBb]) "OK"
    (by decide) (by decide) (by decide) (by decide)
  exact ⟨ha.1, ha.2.1, hb.2.2⟩

/-! ## Claim C10 — Echo payloads containing the delimiter split into frames -/

/-- C10: Echo responses are emitted unescaped, so a string payload containing
U+0017 puts the delimiter byte inside the queued response body (in general:
the UTF-8 bytes of any string containing U+0017 contain `0x17`), and the
peer's delimiter-scanning parser splits that single response into two frames
— one action, more than one response. -/
theorem c10_echo_delimiter_splits :
    (∀ s : String, Char.ofNat 23 ∈ s.data → (23 : Nat) ∈ encodeStr s)
    ∧ (execAction srvW ⟨.ECHO, .str "a\x17b"⟩ sessW fsEmpty).1.stdout =
        encodeStr "a\x17b" ++ [ETBb]
    ∧ ETBb ∈ encodeStr "a\x17b"
    ∧ clientReadResponses [] []
        ((execAction srvW ⟨.ECHO, .str "a\x17b"⟩ sessW fsEmpty).1.stdout) =
      some ([], ["b", "a"])
    ∧ 1 < (["b", "a"] : List String).length := by
  refine ⟨?_, by decide, by decide, by decide, by decide⟩
  intro s h
  unfold encodeStr
  exact List.mem_flatMap.mpr ⟨Char.ofNat 23, h, by decide⟩

/-- C10 witness: instantiation of the general byte-containment part. -/
theorem c10_echo_delimiter_splits_witness :
    (23 : Nat) ∈ encodeStr "x\x17" :=
  c10_echo_delimiter_splits.1 "x\x17" (by decide)

/-! ## Claim C1 — FIFO parsing, execution and response order -/

lemma takeWhile_frame :
    ∀ (f t : List Nat), ETBb ∉ f →
      (f ++ ETBb :: t).takeWhile (fun b => b != ETBb) = f
  | [], t, _ => by simp [List.takeWhile_cons]
  | x :: f, t, hf => by
    have hx : x ≠ ETBb := fun hh => hf (hh ▸ List.mem_cons_self x f)
    have hf' : ETBb ∉ f := fun hh => hf (List.mem_cons_of_mem x hh)
    simp [List.takeWhile_cons, hx, takeWhile_frame f t hf']

lemma drop_frame :
    ∀ (f t : List Nat), (f ++ ETBb :: t).drop (f.length + 1) = t
  | [], t => by simp
  | x :: f, t => by simpa using drop_frame f t

/-- One `parse_block` on a buffer that starts with a complete, decodable frame
pops that frame, queues the decoded action at the head of the deque, and
keeps the rest of the buffer. -/
lemma parse_block_frame (decode : List Nat → Except String ActionData)
    (s : ClientSession) (f t : List Nat) (a : ActionData)
    (hstdin : s.stdin = f ++ ETBb :: t) (hf : ETBb ∉ f)
    (hdec : decode f = .ok a) :
    parse_block decode s = { s with actions := a :: s.actions, stdin := t } := by
  unfold parse_block
  dsimp only
  rw [hstdin, takeWhile_frame f t hf, hdec, drop_frame]

/-- The parse loop over a buffer holding a sequence of complete decodable
frames queues every decoded action, first frame ending last-popped: the deque
reads `acts.reverse` left-to-right (newest at the head). -/
lemma parseLoopAux_frames (decode : List Nat → Except String ActionData) :
    ∀ (frames : List (List Nat)) (acts : List ActionData) (fuel : Nat)
      (s : ClientSession),
      List.Forall₂ (fun f a => ETBb ∉ f ∧ decode f = Except.ok a) frames acts →
      s.stdin = (frames.map (fun f => f ++ [ETBb])).flatten →
      s.stdin.length ≤ fuel →
      parseLoopAux decode fuel s =
        { s with stdin := [], actions := acts.reverse ++ s.actions }
  | [], acts, fuel, s, hall, hstdin, _ => by
    cases hall
    simp only [List.map_nil, List.flatten_nil] at hstdin
    cases s with
    | mk A O I F FH R BL =>
      simp only at hstdin
      subst hstdin
      cases fuel <;> simp [parseLoopAux]
  | f :: frames', acts, fuel, s, hall, hstdin, hfuel => by
    cases hall with
    | cons hfa hall' =>
      rename_i a acts'
      have hstdin' : s.stdin = f ++ ETBb :: ((frames'.map (fun g => g ++ [ETBb])).flatten) := by
        simpa [List.append_assoc] using hstdin
      have hlen : 0 < s.stdin.length := by
        rw [hstdin']
        simp
      cases fuel with
      | zero => omega
      | succ fuel' =>
        have hmem : ETBb ∈ s.stdin := by
          rw [hstdin']
          exact List.mem_append_right f (List.mem_cons_self ETBb _)
        rw [parseLoopAux, if_pos hmem,
          parse_block_frame decode s f _ a hstdin' hfa.1 hfa.2]
        have hrec := parseLoopAux_frames decode frames' acts' fuel'
          ({ s with actions := a :: s.actions,
                    stdin := (frames'.map (fun g => g ++ [ETBb])).flatten })
          hall' rfl
          (by
            have : s.stdin.length =
                f.length + 1 + ((frames'.map (fun g => g ++ [ETBb])).flatten).length := by
              rw [hstdin']
              simp
              omega
            simp only
            omega)
        rw [hrec]
        simp [List.append_assoc]

/-- Executing one action ignores and preserves the queue field. -/
lemma execAction_actions (srv : Server) (a : ActionData) :
    ∀ (s : ClientSession) (fs : FS) (b : List ActionData),
      execAction srv a { s with actions := b } fs =
        ({ (execAction srv a s fs).1 with actions := b },
         (execAction srv a s fs).2) := by
  obtain ⟨act, d⟩ := a
  intro s fs b
  cases s with
  | mk A O I F FH R BL =>
    cases act with
    | ECHO => rfl
    | SET_META =>
      cases R with
      | false =>
        cases d with
        | fileInfoDict dp h sz =>
          by_cases habs : isAbsolute dp = true <;> simp [execAction, habs]
        | none_ => rfl
        | str s => rfl
        | int n => rfl
        | boolean bb => rfl
        | other => rfl
      | true => rfl
    | START_SEND =>
      cases R with
      | false =>
        cases F with
        | none => rfl
        | some fi =>
          by_cases hex : fs.existsPath fi.dest_path = true <;> simp [execAction, hex]
      | true => rfl
    | CLEAR_FILE_INFO => cases R <;> rfl
    | SET_FILE_BLOCK_SIZE => cases d <;> rfl

/-- Executing one action only appends to the outbound buffer. -/
lemma execAction_stdout_prefix (srv : Server) (a : ActionData)
    (s : ClientSession) (fs : FS) :
    (execAction srv a s fs).1.stdout =
      s.stdout ++ (execAction srv a s fs).1.stdout.drop s.stdout.length := by
  obtain ⟨act, d⟩ := a
  cases s with
  | mk A O I F FH R BL =>
    cases act with
    | ECHO => simp [execAction]
    | SET_META =>
      cases R with
      | false =>
        cases d with
        | fileInfoDict dp h sz =>
          by_cases habs : isAbsolute dp = true <;> simp [execAction, habs]
        | none_ => simp [execAction]
        | str s => simp [execAction]
        | int n => simp [execAction]
        | boolean bb => simp [execAction]
        | other => simp [execAction]
      | true => simp [execAction]
    | START_SEND =>
      cases R with
      | false =>
        cases F with
        | none => simp [execAction]
        | some fi =>
          by_cases hex : fs.existsPath fi.dest_path = true <;> simp [execAction, hex]
      | true => simp [execAction]
    | CLEAR_FILE_INFO => cases R <;> simp [execAction]
    | SET_FILE_BLOCK_SIZE => cases d <;> simp [execAction]

/-- Executing one action leaves the queue field as it was. -/
lemma execAction_actions_eq (srv : Server) (a : ActionData)
    (s : ClientSession) (fs : FS) :
    (execAction srv a s fs).1.actions = s.actions := by
  obtain ⟨act, d⟩ := a
  cases s with
  | mk A O I F FH R BL =>
    cases act with
    | ECHO => rfl
    | SET_META =>
      cases R with
      | false =>
        cases d with
        | fileInfoDict dp h sz =>
          by_cases habs : isAbsolute dp = true <;> simp [execAction, habs]
        | none_ => rfl
        | str s => rfl
        | int n => rfl
        | boolean bb => rfl
        | other => rfl
      | true => rfl
    | START_SEND =>
      cases R with
      | false =>
        cases F with
        | none => rfl
        | some fi =>
          by_cases hex : fs.existsPath fi.dest_path = true <;> simp [execAction, hex]
      | true => rfl
    | CLEAR_FILE_INFO => cases R <;> rfl
    | SET_FILE_BLOCK_SIZE => cases d <;> rfl

/-- Ticking the action handler once per queued action executes the queue
oldest-first: it is the left-to-right execution of the reversed deque. -/
lemma tickActions_eq_execList_rev (srv : Server) :
    ∀ (bs : List ActionData) (s : ClientSession) (fs : FS),
      s.actions = bs.reverse →
      tickActions srv bs.length s fs = execList srv bs { s with actions := [] } fs
  | [], s, fs, hq => by
    cases s with
    | mk A O I F FH R BL =>
      simp only [List.reverse_nil] at hq
      subst hq
      simp [tickActions, execList]
  | b :: bs', s, fs, hq => by
    have hlast : s.actions.getLast? = some b := by
      rw [hq, List.reverse_cons, List.getLast?_concat]
    have hdrop : s.actions.dropLast = bs'.reverse := by
      rw [hq, List.reverse_cons, List.dropLast_concat]
    rcases hE : execAction srv b { s with actions := [] } fs with ⟨X1, X2⟩
    have hacts : X1.actions = [] := by
      have h0 := execAction_actions_eq srv b { s with actions := [] } fs
      rw [hE] at h0
      simpa using h0
    have hstep : handle_action srv s fs = ({ X1 with actions := bs'.reverse }, X2) := by
      unfold handle_action
      rw [hlast, hdrop]
      dsimp only
      have h1 := execAction_actions srv b s fs bs'.reverse
      have h2 := execAction_actions srv b s fs ([] : List ActionData)
      rw [h2] at hE
      have hx1 : ({ (execAction srv b s fs).1 with actions := ([] : List ActionData) }) = X1 :=
        congrArg Prod.fst hE
      have hx2 : (execAction srv b s fs).2 = X2 := congrArg Prod.snd hE
      rw [h1, ← hx1, ← hx2]
    simp only [tickActions, List.length_cons, hstep]
    have hrec := tickActions_eq_execList_rev srv bs'
      ({ X1 with actions := bs'.reverse }) X2 rfl
    rw [hrec]
    conv_rhs => rw [execList]
    rw [hE]
    cases X1 with
    | mk A1 O1 I1 F1 FH1 R1 BL1 =>
      simp only at hacts
      subst hacts
      rfl

/-- The outbound buffer after executing a list of actions is the original
buffer followed by the per-action response slices, in execution order. -/
lemma execList_stdout (srv : Server) :
    ∀ (as : List ActionData) (s : ClientSession) (fs : FS),
      (execList srv as s fs).1.stdout =
        s.stdout ++ (responsesOf srv as s fs).flatten
  | [], s, fs => by simp [execList, responsesOf]
  | a :: rest, s, fs => by
    simp only [execList, responsesOf, List.flatten_cons]
    rw [execList_stdout srv rest (execAction srv a s fs).1 (execAction srv a s fs).2]
    rw [← List.append_assoc, ← execAction_stdout_prefix]

/-- C1: for a burst of well-formed frames, (i) the parser queues their decoded
actions with the first-received frame popped first; (ii) running one
`_handle_action` per pass executes exactly those actions first-parsed-first-
executed (left-to-right execution of the arrival-ordered list); (iii) each
execution appends its status response to the outbound buffer, so responses
appear in that same arrival order. -/
theorem c1_fifo_order (srv : Server)
    (decode : List Nat → Except String ActionData)
    (frames : List (List Nat)) (acts : List ActionData)
    (s : ClientSession) (fs : FS)
    (hall : List.Forall₂ (fun f a => ETBb ∉ f ∧ decode f = Except.ok a) frames acts)
    (hstdin : s.stdin = (frames.map (fun f => f ++ [ETBb])).flatten)
    (hq : s.actions = []) :
    parseLoop decode s = { s with stdin := [], actions := acts.reverse }
    ∧ tickActions srv acts.length { s with stdin := [], actions := acts.reverse } fs =
        execList srv acts { s with stdin := [], actions := [] } fs
    ∧ ∀ (as : List ActionData) (s2 : ClientSession) (fs2 : FS),
        (execList srv as s2 fs2).1.stdout =
          s2.stdout ++ (responsesOf srv as s2 fs2).flatten := by
  refine ⟨?_, ?_, fun as s2 fs2 => execList_stdout srv as s2 fs2⟩
  · have h := parseLoopAux_frames decode frames acts s.stdin.length s hall hstdin le_rfl
    rw [parseLoop, h, hq]
    simp
  · have h := tickActions_eq_execList_rev srv acts
      ({ s with stdin := [], actions := acts.reverse }) fs (by simp)
    simpa using h

/-- C1 witness: five mixed Echo / SetFileBlockSize frames (the spec's FIFO
check), parsed and executed in arrival order with the five responses laid out
in the same order in the outbound buffer. -/
theorem c1_fifo_order_witness :
    parseLoop decodeW
        { sessW with stdin := (framesW.map (fun f => f ++ [ETBb])).flatten } =
      { sessW with stdin := [], actions := actsW.reverse }
    ∧ tickActions srvW actsW.length
        { sessW with stdin := [], actions := actsW.reverse } fsEmpty =
      execList srvW actsW { sessW with stdin := [], actions := [] } fsEmpty
    ∧ (execList srvW actsW sessW fsEmpty).1.stdout =
        (responsesOf srvW actsW sessW fsEmpty).flatten := by
  have hall : List.Forall₂
      (fun f a => ETBb ∉ f ∧ decodeW f = Except.ok a) framesW actsW :=
    List.Forall₂.cons ⟨by decide, by rfl⟩
      (List.Forall₂.cons ⟨by decide, by rfl⟩
        (List.Forall₂.cons ⟨by decide, by rfl⟩
          (List.Forall₂.cons ⟨by decide, by rfl⟩
            (List.Forall₂.cons ⟨by decide, by rfl⟩ List.Forall₂.nil))))
  have h := c1_fifo_order srvW decodeW framesW actsW
    { sessW with stdin := (framesW.map (fun f => f ++ [ETBb])).flatten }
    fsEmpty hall rfl rfl
  exact ⟨h.1, h.2.1, by simpa using h.2.2 actsW sessW fsEmpty⟩

end HT
